import Mathlib

/-!
Shallow embedding of the star-field canvas animator of `script.js`
(the `DOMContentLoaded` block guarding `stars-canvas`): star generation
(`generateStars`), the per-frame render loop (`render`), the resize
handler (`updateStars`) and the `beforeunload` teardown handler.

Numbers are modelled as exact rationals.  The two library calls whose
results the code consumes — `Math.random()` and `Math.sin` — are
modelled as oracles bundled in an environment `Env`: `rand` is the
stream of successive `Math.random()` results (the code consumes them in
source order, tracked by an explicit counter), and `sin` is the sine
routine, constrained only where a claim needs it (`|sin x| ≤ 1`,
`0 ≤ rand n < 1`).  The animation-frame scheduler and the resize
observer are modelled by a small-step transition relation on a component
state: `scheduled` is the multiset (list) of pending animation-frame
callbacks, so "no second concurrent render loop" is a provable property
rather than a modelling assumption.
-/

namespace StarField

/-- Source: `const starDensity = 0.00015;` -/
def starDensity : ℚ := 15 / 100000

/-- Source: `const minTwinkleSpeed = 0.5;` -/
def minTwinkleSpeed : ℚ := 1 / 2

/-- Source: `const maxTwinkleSpeed = 1;` -/
def maxTwinkleSpeed : ℚ := 1

/-- Source: `const twinkleProbability = 0.7;` -/
def twinkleProbability : ℚ := 7 / 10

/-- Source: `const allStarsTwinkle = true;` -/
def allStarsTwinkle : Bool := true

/-- One star object as pushed by `generateStars`:
`{ x, y, radius, opacity, twinkleSpeed }`, where `twinkleSpeed` is
`null` (`none`) for non-twinkling stars. -/
structure Star where
  x : ℚ
  y : ℚ
  radius : ℚ
  opacity : ℚ
  twinkleSpeed : Option ℚ
deriving DecidableEq

/-- Oracles for the two library calls: `rand n` is the result of the
`(n+1)`-st call to `Math.random()`, `sin` is `Math.sin`. -/
structure Env where
  rand : ℕ → ℚ
  sin : ℚ → ℚ

/-- The body of the `for` loop of `generateStars`, building one star.
`k` is the index of the next unconsumed `Math.random()` result; the
second component is the counter after the pushed object is built.
`shouldTwinkle = allStarsTwinkle || Math.random() < twinkleProbability`
short-circuits: with `allStarsTwinkle` true no random is consumed. -/
def genStar (E : Env) (width height : ℚ) (k : ℕ) : Star × ℕ :=
  let p : Bool × ℕ :=
    if allStarsTwinkle then (true, k)
    else (decide (E.rand k < twinkleProbability), k + 1)
  let shouldTwinkle := p.1
  let j := p.2
  let star : Star :=
    { x := E.rand j * width
      y := E.rand (j + 1) * height
      radius := E.rand (j + 2) * (5 / 100) + 1 / 2
      opacity := E.rand (j + 3) * (1 / 2) + 1 / 2
      twinkleSpeed :=
        if shouldTwinkle then
          some (minTwinkleSpeed + E.rand (j + 4) * (maxTwinkleSpeed - minTwinkleSpeed))
        else none }
  (star, if shouldTwinkle then j + 5 else j + 4)

/-- The `for (let i = 0; i < numStars; i++)` loop of `generateStars`,
threading the random counter. -/
def generateStarsAux (E : Env) (width height : ℚ) : ℕ → ℕ → List Star × ℕ
  | 0, k => ([], k)
  | n + 1, k =>
      let sk := genStar E width height k
      let rest := generateStarsAux E width height n sk.2
      (sk.1 :: rest.1, rest.2)

/-- `const area = width * height; const numStars = Math.floor(area * starDensity);`
(`Int.toNat`: a negative count runs the loop zero times, exactly as the
`for` loop would). -/
def numStars (width height : ℚ) : ℕ :=
  let area := width * height
  (⌊area * starDensity⌋).toNat

/-- `generateStars(width, height)`: returns the generated list and the
random counter after the call. -/
def generateStars (E : Env) (k : ℕ) (width height : ℚ) : List Star × ℕ :=
  let g := generateStarsAux E width height (numStars width height) k
  (g.1, g.2)

/-- One `ctx.arc`/`ctx.fill` draw command issued for a star: it records
the position, radius and opacity actually passed to the canvas. -/
structure DrawCmd where
  x : ℚ
  y : ℚ
  radius : ℚ
  opacity : ℚ
deriving DecidableEq

/-- The draw command issued for a star by the `forEach` body, read off
before any mutation of that star. -/
def drawOf (s : Star) : DrawCmd :=
  { x := s.x, y := s.y, radius := s.radius, opacity := s.opacity }

/-- The mutation step of the `forEach` body:
`if (star.twinkleSpeed !== null) star.opacity =
  0.5 + Math.abs(Math.sin((Date.now() * 0.001) / star.twinkleSpeed) * 0.5);`
`now` is the `Date.now()` value (milliseconds) read in this frame. -/
def renderStar (E : Env) (now : ℚ) (s : Star) : Star :=
  match s.twinkleSpeed with
  | some speed =>
      { s with opacity := 1 / 2 + |E.sin ((now * (1 / 1000)) / speed) * (1 / 2)| }
  | none => s

/-- The `stars.forEach((star) => { ... })` loop of `render`: for each
star in order, first the draw command is emitted, then the star is
(possibly) mutated.  Returns the emitted draw commands and the star
list after the frame. -/
def renderLoop (E : Env) (now : ℚ) : List Star → List DrawCmd × List Star
  | [] => ([], [])
  | s :: rest =>
      let cmd := drawOf s
      let s2 := renderStar E now s
      let r := renderLoop E now rest
      (cmd :: r.1, s2 :: r.2)

/-- The mutable state of the component: the `stars` and
`animationFrameId` variables of the script, the canvas bitmap size, the
position in the random stream, plus the platform side — the pending
animation-frame callbacks (`scheduled`, a list so that several
concurrent loops would be observable), the scheduler's id counter, the
resize-observer subscription, whether `beforeunload` has fired, and how
often `cancelAnimationFrame` has been invoked. -/
structure CompState where
  canvasWidth : ℚ
  canvasHeight : ℚ
  stars : List Star
  animationFrameId : Option ℕ
  rngIdx : ℕ
  nextFrameId : ℕ
  scheduled : List ℕ
  observing : Bool
  tornDown : Bool
  cancelCount : ℕ
deriving DecidableEq

/-- `requestAnimationFrame(render)`: hands out a fresh nonzero handle
and enqueues the callback.  Browser handles are positive integers, so
`!animationFrameId` is falsy exactly when a handle was ever stored. -/
def requestFrame (st : CompState) : ℕ × CompState :=
  let id := st.nextFrameId + 1
  (id, { st with nextFrameId := id, scheduled := st.scheduled ++ [id] })

/-- One invocation of `render()`: clears the canvas, runs the `forEach`
draw-then-mutate loop, then `animationFrameId = requestAnimationFrame(render)`.
Returns the draw commands of this frame and the new state. -/
def render (E : Env) (now : ℚ) (st : CompState) : List DrawCmd × CompState :=
  let r := renderLoop E now st.stars
  let q := requestFrame { st with stars := r.2 }
  (r.1, { q.2 with animationFrameId := some q.1 })

/-- One invocation of `updateStars()` (the resize handler), where `w`
and `h` are the `getBoundingClientRect()` dimensions and `now` the
clock value a started render would read:
`if (width === 0 || height === 0) return;` then resize the bitmap,
regenerate the stars, and `if (!animationFrameId) render();`. -/
def updateStars (E : Env) (w h now : ℚ) (st : CompState) : CompState :=
  if w = 0 ∨ h = 0 then st
  else
    let g := generateStars E st.rngIdx w h
    let st2 := { st with canvasWidth := w, canvasHeight := h, stars := g.1, rngIdx := g.2 }
    if st2.animationFrameId = none then (render E now st2).2 else st2

/-- The `beforeunload` handler:
`cancelAnimationFrame(animationFrameId)` (removes the pending callback
carrying that handle, a no-op on `undefined`), then
`resizeObserver.unobserve(canvas)`. -/
def teardownOp (st : CompState) : CompState :=
  { st with
    scheduled :=
      match st.animationFrameId with
      | some id => st.scheduled.filter (fun j => j != id)
      | none => st.scheduled
    cancelCount := st.cancelCount + 1
    observing := false
    tornDown := true }

/-- The externally triggered events: a resize-observer callback (with
the observed rect and the clock), the scheduler firing a pending
animation frame, and the `beforeunload` notification. -/
inductive Event where
  | resize (w h now : ℚ)
  | frame (now : ℚ)
  | teardown

/-- Small-step semantics.  A resize callback can fire only while the
observer is subscribed; a frame callback only while it is pending
(firing dequeues it, then runs `render`, which re-schedules);
`beforeunload` fires at most once. -/
inductive Step (E : Env) : CompState → Event → CompState → Prop where
  | resize (w h now : ℚ) (st : CompState) (ho : st.observing = true) :
      Step E st (.resize w h now) (updateStars E w h now st)
  | frame (now : ℚ) (st : CompState) (id : ℕ) (rest : List ℕ)
      (hs : st.scheduled = id :: rest) :
      Step E st (.frame now) ((render E now { st with scheduled := rest }).2)
  | teardown (st : CompState) (ht : st.tornDown = false) :
      Step E st .teardown (teardownOp st)

/-- State at `DOMContentLoaded`, before the initial `updateStars()`
call (which is itself the first `resize` event): `stars = []`,
`animationFrameId` undefined, nothing scheduled, observer subscribed. -/
def initState : CompState :=
  { canvasWidth := 0, canvasHeight := 0, stars := [], animationFrameId := none,
    rngIdx := 0, nextFrameId := 0, scheduled := [], observing := true,
    tornDown := false, cancelCount := 0 }

/-- States reachable from initialization. -/
inductive Reachable (E : Env) : CompState → Prop where
  | init : Reachable E initState
  | step {st : CompState} {e : Event} {st2 : CompState} :
      Reachable E st → Step E st e st2 → Reachable E st2

/-- Animating: at least one outstanding scheduled frame. -/
def Animating (st : CompState) : Prop := st.scheduled ≠ []

/-- Idle: no active frame-scheduling. -/
def Idle (st : CompState) : Prop := st.scheduled = []

end StarField

namespace StarField

/-- Concrete oracle environment used to instantiate the theorems:
every `Math.random()` result is `0` and `Math.sin` always returns `0`
(both within the respective ranges of the library routines). -/
def zeroEnv : Env := { rand := fun _ => 0, sin := fun _ => 0 }

lemma zeroEnv_rand_mem (n : ℕ) : 0 ≤ zeroEnv.rand n ∧ zeroEnv.rand n < 1 := by
  norm_num [zeroEnv]

lemma length_generateStarsAux (E : Env) (w h : ℚ) :
    ∀ n k, (generateStarsAux E w h n k).1.length = n := by
  intro n
  induction n with
  | zero => intro k; rfl
  | succ m ih => intro k; simpa [generateStarsAux] using ih (genStar E w h k).2

lemma length_generateStars (E : Env) (k : ℕ) (w h : ℚ) :
    (generateStars E k w h).1.length = numStars w h :=
  length_generateStarsAux E w h (numStars w h) k

lemma mem_generateStarsAux {E : Env} {w h : ℚ} :
    ∀ {n k s}, s ∈ (generateStarsAux E w h n k).1 → ∃ j, s = (genStar E w h j).1 := by
  intro n
  induction n with
  | zero => intro k s hs; simp [generateStarsAux] at hs
  | succ m ih =>
      intro k s hs
      simp only [generateStarsAux, List.mem_cons] at hs
      rcases hs with h1 | h2
      · exact ⟨k, h1⟩
      · exact ih h2

lemma mem_generateStars {E : Env} {k : ℕ} {w h : ℚ} {s : Star}
    (hs : s ∈ (generateStars E k w h).1) : ∃ j, s = (genStar E w h j).1 :=
  mem_generateStarsAux hs

/-- With `allStarsTwinkle = true` the `||` short-circuits: the star is
built from five consecutive `Math.random()` results. -/
lemma genStar_eq (E : Env) (w h : ℚ) (j : ℕ) :
    (genStar E w h j).1 =
      { x := E.rand j * w, y := E.rand (j + 1) * h,
        radius := E.rand (j + 2) * (5 / 100) + 1 / 2,
        opacity := E.rand (j + 3) * (1 / 2) + 1 / 2,
        twinkleSpeed :=
          some (minTwinkleSpeed + E.rand (j + 4) * (maxTwinkleSpeed - minTwinkleSpeed)) } :=
  rfl

lemma one_le_area_density_of_mem {E : Env} {k : ℕ} {w h : ℚ} {s : Star}
    (hs : s ∈ (generateStars E k w h).1) : 1 ≤ w * h * starDensity := by
  by_contra hlt
  push_neg at hlt
  have hfl : ⌊w * h * starDensity⌋ < 1 := by
    have : w * h * starDensity < ((1 : ℤ) : ℚ) := by exact_mod_cast hlt
    exact Int.floor_lt.mpr this
  have hzero : numStars w h = 0 := by
    simp only [numStars]
    omega
  have : (generateStars E k w h).1.length = 0 := by
    rw [length_generateStars, hzero]
  rw [List.length_eq_zero] at this
  rw [this] at hs
  simp at hs


/-- The single star produced by `generateStars zeroEnv 0 100 100`
(area 10000, so `⌊10000 · 0.00015⌋ = 1` star, built from zero randoms). -/
def zStar : Star :=
  { x := 0, y := 0, radius := 1 / 2, opacity := 1 / 2, twinkleSpeed := some (1 / 2) }

lemma generateStars_zeroEnv_100 : (generateStars zeroEnv 0 100 100).1 = [zStar] := by
  have h1 : numStars 100 100 = 1 := by
    simp only [numStars, starDensity]
    norm_num
  simp only [generateStars, h1, generateStarsAux, genStar_eq, zeroEnv, zStar,
    minTwinkleSpeed, maxTwinkleSpeed]
  norm_num

lemma zStar_mem : zStar ∈ (generateStars zeroEnv 0 100 100).1 := by
  rw [generateStars_zeroEnv_100]
  exact List.mem_singleton.mpr rfl

/-- C1: for every width and height, `generateStars` returns exactly
`⌊width · height · starDensity⌋` stars; in particular the empty list
when a dimension is zero, and a 1000×1000 surface yields exactly 150
stars. -/
theorem generateStars_count (E : Env) (k : ℕ) (w h : ℚ)
    (hw : 0 ≤ w) (hh : 0 ≤ h) :
    (((generateStars E k w h).1.length : ℤ) = ⌊w * h * starDensity⌋) ∧
    ((w = 0 ∨ h = 0) → (generateStars E k w h).1 = []) ∧
    (generateStars E k 1000 1000).1.length = 150 := by
  refine ⟨?_, ?_, ?_⟩
  · rw [length_generateStars]
    have hnn : (0 : ℚ) ≤ w * h * starDensity := by
      have : (0 : ℚ) ≤ starDensity := by norm_num [starDensity]
      positivity
    have hfl : 0 ≤ ⌊w * h * starDensity⌋ := Int.floor_nonneg.mpr hnn
    simp only [numStars]
    omega
  · intro hz
    have hlen : (generateStars E k w h).1.length = 0 := by
      rw [length_generateStars]
      simp only [numStars]
      rcases hz with rfl | rfl <;> simp
    exact List.eq_nil_of_length_eq_zero hlen
  · rw [length_generateStars]
    simp only [numStars, starDensity]
    norm_num
    rfl

/-- Witness for C1 at the concrete 1000×1000 surface. -/
theorem generateStars_count_witness :
    (((generateStars zeroEnv 0 1000 1000).1.length : ℤ)
        = ⌊(1000 : ℚ) * 1000 * starDensity⌋) ∧
    (((1000 : ℚ) = 0 ∨ (1000 : ℚ) = 0) → (generateStars zeroEnv 0 1000 1000).1 = []) ∧
    (generateStars zeroEnv 0 1000 1000).1.length = 150 :=
  generateStars_count zeroEnv 0 1000 1000 (by norm_num) (by norm_num)

/-- C5: every generated star has radius in `[0.5, 0.55)`, opacity in
`[0.5, 1)` and coordinates inside `[0, width) × [0, height)`. -/
theorem generateStars_star_bounds (E : Env)
    (hE : ∀ n, 0 ≤ E.rand n ∧ E.rand n < 1)
    (k : ℕ) (w h : ℚ) (hw : 0 ≤ w) (hh : 0 ≤ h) :
    ∀ s ∈ (generateStars E k w h).1,
      (1 / 2 ≤ s.radius ∧ s.radius < 55 / 100) ∧
      (1 / 2 ≤ s.opacity ∧ s.opacity < 1) ∧
      (0 ≤ s.x ∧ s.x < w) ∧ (0 ≤ s.y ∧ s.y < h) := by
  intro s hs
  have harea : 1 ≤ w * h * starDensity := one_le_area_density_of_mem hs
  have hwpos : 0 < w := by
    rcases lt_or_eq_of_le hw with hlt | heq
    · exact hlt
    · exfalso
      rw [← heq] at harea
      norm_num at harea
  have hhpos : 0 < h := by
    rcases lt_or_eq_of_le hh with hlt | heq
    · exact hlt
    · exfalso
      rw [← heq] at harea
      norm_num at harea
  obtain ⟨j, rfl⟩ := mem_generateStars hs
  rw [genStar_eq]
  obtain ⟨hx0, hx1⟩ := hE j
  obtain ⟨hy0, hy1⟩ := hE (j + 1)
  obtain ⟨hr0, hr1⟩ := hE (j + 2)
  obtain ⟨ho0, ho1⟩ := hE (j + 3)
  refine ⟨⟨?_, ?_⟩, ⟨?_, ?_⟩, ⟨?_, ?_⟩, ?_, ?_⟩ <;> simp only
  · nlinarith
  · nlinarith
  · nlinarith
  · nlinarith
  · exact mul_nonneg hx0 (le_of_lt hwpos)
  · nlinarith
  · exact mul_nonneg hy0 (le_of_lt hhpos)
  · nlinarith

/-- Witness for C5 at the single star of a 100×100 surface. -/
theorem generateStars_star_bounds_witness :
    ((1 : ℚ) / 2 ≤ zStar.radius ∧ zStar.radius < 55 / 100) ∧
    (1 / 2 ≤ zStar.opacity ∧ zStar.opacity < 1) ∧
    (0 ≤ zStar.x ∧ zStar.x < 100) ∧ (0 ≤ zStar.y ∧ zStar.y < 100) :=
  generateStars_star_bounds zeroEnv zeroEnv_rand_mem 0 100 100
    (by norm_num) (by norm_num) zStar zStar_mem

/-- C8: with the `allStarsTwinkle` flag set, every generated star has a
non-null twinkle speed in `[minTwinkleSpeed, maxTwinkleSpeed)`. -/
theorem generateStars_twinkle_speed (E : Env)
    (hE : ∀ n, 0 ≤ E.rand n ∧ E.rand n < 1)
    (k : ℕ) (w h : ℚ) (hall : allStarsTwinkle = true) :
    ∀ s ∈ (generateStars E k w h).1,
      ∃ sp, s.twinkleSpeed = some sp ∧ minTwinkleSpeed ≤ sp ∧ sp < maxTwinkleSpeed := by
  intro s hs
  obtain ⟨j, rfl⟩ := mem_generateStars hs
  rw [genStar_eq]
  obtain ⟨ht0, ht1⟩ := hE (j + 4)
  refine ⟨_, rfl, ?_, ?_⟩
  · simp only [minTwinkleSpeed, maxTwinkleSpeed]
    nlinarith
  · simp only [minTwinkleSpeed, maxTwinkleSpeed]
    nlinarith

/-- Witness for C8 at the single star of a 100×100 surface. -/
theorem generateStars_twinkle_speed_witness :
    zStar.twinkleSpeed = some (1 / 2) ∧
    minTwinkleSpeed ≤ (1 / 2 : ℚ) ∧ (1 / 2 : ℚ) < maxTwinkleSpeed := by
  obtain ⟨sp, hsp, h1, h2⟩ :=
    generateStars_twinkle_speed zeroEnv zeroEnv_rand_mem 0 100 100 rfl zStar zStar_mem
  have hsp2 : some (1 / 2 : ℚ) = some sp := hsp
  have he : (1 / 2 : ℚ) = sp := Option.some.inj hsp2
  rw [← he] at h1 h2
  exact ⟨rfl, h1, h2⟩

lemma renderLoop_fst (E : Env) (now : ℚ) :
    ∀ stars, (renderLoop E now stars).1 = stars.map drawOf := by
  intro stars
  induction stars with
  | nil => rfl
  | cons s rest ih => simp [renderLoop, ih]

lemma renderLoop_snd (E : Env) (now : ℚ) :
    ∀ stars, (renderLoop E now stars).2 = stars.map (renderStar E now) := by
  intro stars
  induction stars with
  | nil => rfl
  | cons s rest ih => simp [renderLoop, ih]

lemma renderStar_none (E : Env) (now : ℚ) {s : Star}
    (h : s.twinkleSpeed = none) : renderStar E now s = s := by
  simp [renderStar, h]

lemma renderStar_some (E : Env) (now : ℚ) {s : Star} {sp : ℚ}
    (h : s.twinkleSpeed = some sp) :
    renderStar E now s =
      { s with opacity := 1 / 2 + |E.sin ((now * (1 / 1000)) / sp) * (1 / 2)| } := by
  simp [renderStar, h]

/-- Iterating the per-star mutation over a list of clock readings: the
effect of a sequence of `render` frames on one star position. -/
def starIter (E : Env) (times : List ℚ) (s : Star) : Star :=
  times.foldl (fun s2 t => renderStar E t s2) s

/-- A twinkling star with mid-range opacity, used as a concrete input. -/
def twStar : Star :=
  { x := 0, y := 0, radius := 1 / 2, opacity := 3 / 4, twinkleSpeed := some (1 / 2) }

/-- A non-twinkling star (`twinkleSpeed` null), used as a concrete input. -/
def stStar : Star :=
  { x := 1, y := 2, radius := 1 / 2, opacity := 3 / 4, twinkleSpeed := none }

/-- C2: one `render` maps every star through the mutation step, and for
a twinkling star the new opacity is exactly
`0.5 + 0.5 · |sin((now / 1000) / twinkleSpeed)|` for the clock value
`now` (in milliseconds) read during that frame. -/
theorem render_twinkle_opacity (E : Env) (now : ℚ) (st : CompState) :
    (render E now st).2.stars = st.stars.map (renderStar E now) ∧
    ∀ s sp, s.twinkleSpeed = some sp →
      (renderStar E now s).opacity = 1 / 2 + (1 / 2) * |E.sin ((now / 1000) / sp)| := by
  constructor
  · simp [render, requestFrame, renderLoop_snd]
  · intro s sp hsp
    rw [renderStar_some E now hsp]
    have harg : now * (1 / 1000) = now / 1000 := by ring
    rw [harg, abs_mul, abs_of_nonneg (by norm_num : (0 : ℚ) ≤ 1 / 2)]
    ring

/-- Witness for C2 at a concrete twinkling star and clock value. -/
theorem render_twinkle_opacity_witness :
    (renderStar zeroEnv 5 twStar).opacity
      = 1 / 2 + (1 / 2) * |zeroEnv.sin ((5 / 1000) / (1 / 2))| :=
  (render_twinkle_opacity zeroEnv 5 initState).2 twStar (1 / 2) rfl

/-- A wall-clock reading at which the twinkle mutation provably leaves
the half-open opacity range: `Date.now() = 1748414219622`
(2025-05-28T06:36:59.622Z). -/
def hitNow : ℚ := 1748414219622

/-- C6 counterexample environment.  Take a star whose `twinkleSpeed` is
`0.5` — the value `minTwinkleSpeed + Math.random() * (maxTwinkleSpeed -
minTwinkleSpeed)` takes when `Math.random()` returns `0` — at the frame
whose clock reading is `hitNow`.  The code then evaluates
`Math.sin((1748414219622 * 0.001) / 0.5)` in IEEE double arithmetic:
`1748414219622 * 0.001` rounds to the double `1748414219.622` (exactly
`7333380755017433 / 2^22`), the division by `0.5` is exact and yields
the double `3496828439.244`, and that double lies within `2.26e-10` of
`π/2 + 2π·556537531`.  The true sine of that argument is `1 - 2.6e-20`,
over two thousand times closer to `1` than the rounding boundary
`1 - 2^-54` below which a correctly rounded sine could return anything
other than `1.0` — so `Math.sin` returns exactly `1.0` there.  The
oracle below records this: it returns `1` at the argument the embedded
mutation passes during that frame and `0` elsewhere (in particular
`sin 0 = 0`), so every value it takes lies in the range of `Math.sin`. -/
def cexEnv : Env :=
  { rand := fun _ => 0,
    sin := fun x => if x = hitNow * (1 / 1000) / (1 / 2) then 1 else 0 }

/-- C6 counterexample: at clock reading `hitNow` the mutation of a
twinkling star with speed `0.5` and in-range opacity computes
`0.5 + |1 * 0.5| = 1`, leaving the claimed range `[0.5, 1.0)`. -/
theorem render_opacity_reaches_one :
    cexEnv.sin 0 = 0 ∧
    cexEnv.sin (hitNow * (1 / 1000) / (1 / 2)) = 1 ∧
    twStar.twinkleSpeed = some (1 / 2) ∧
    (1 / 2 ≤ twStar.opacity ∧ twStar.opacity < 1) ∧
    (renderStar cexEnv hitNow twStar).opacity = 1 ∧
    ¬ (renderStar cexEnv hitNow twStar).opacity < 1 := by
  have harg : cexEnv.sin (hitNow * (1 / 1000) / (1 / 2)) = 1 := by
    simp [cexEnv]
  have hop : (renderStar cexEnv hitNow twStar).opacity = 1 := by
    rw [renderStar_some cexEnv hitNow (rfl : twStar.twinkleSpeed = some (1 / 2))]
    show 1 / 2 + |cexEnv.sin ((hitNow * (1 / 1000)) / (1 / 2)) * (1 / 2)| = 1
    rw [harg, abs_of_nonneg (by norm_num : (0 : ℚ) ≤ 1 * (1 / 2))]
    norm_num
  refine ⟨?_, harg, rfl, ⟨by norm_num [twStar], by norm_num [twStar]⟩, hop, ?_⟩
  · show (if (0 : ℚ) = hitNow * (1 / 1000) / (1 / 2) then (1 : ℚ) else 0) = 0
    rw [if_neg (by norm_num [hitNow])]
  · rw [hop]
    norm_num

/-- C6 amended: opacity stays in the closed range `[0.5, 1]`: at
generation it lies in `[0.5, 1)`, each per-frame mutation yields a
value in `[0.5, 1]`, and the mutated opacity equals `1` if and only if
the sine value computed that frame has absolute value `1`. -/
theorem opacity_range_invariant (E : Env)
    (hsin : ∀ x, |E.sin x| ≤ 1)
    (hE : ∀ n, 0 ≤ E.rand n ∧ E.rand n < 1) :
    (∀ k w h, ∀ s ∈ (generateStars E k w h).1, 1 / 2 ≤ s.opacity ∧ s.opacity < 1) ∧
    (∀ now s, 1 / 2 ≤ s.opacity → s.opacity ≤ 1 →
      1 / 2 ≤ (renderStar E now s).opacity ∧ (renderStar E now s).opacity ≤ 1) ∧
    (∀ now s sp, s.twinkleSpeed = some sp →
      ((renderStar E now s).opacity = 1 ↔ |E.sin ((now * (1 / 1000)) / sp)| = 1)) := by
  refine ⟨?_, ?_, ?_⟩
  · intro k w h s hs
    obtain ⟨j, rfl⟩ := mem_generateStars hs
    rw [genStar_eq]
    obtain ⟨ho0, ho1⟩ := hE (j + 3)
    constructor
    · simp only
      nlinarith
    · simp only
      nlinarith
  · intro now s h0 h1
    rcases htw : s.twinkleSpeed with _ | sp
    · rw [renderStar_none E now htw]
      exact ⟨h0, h1⟩
    · rw [renderStar_some E now htw]
      simp only
      have habs : |E.sin ((now * (1 / 1000)) / sp) * (1 / 2)| ≤ 1 / 2 := by
        rw [abs_mul, abs_of_nonneg (by norm_num : (0 : ℚ) ≤ 1 / 2)]
        have := hsin ((now * (1 / 1000)) / sp)
        nlinarith
      have hnn : 0 ≤ |E.sin ((now * (1 / 1000)) / sp) * (1 / 2)| := abs_nonneg _
      constructor
      · linarith
      · linarith
  · intro now s sp hsp
    rw [renderStar_some E now hsp]
    show 1 / 2 + |E.sin ((now * (1 / 1000)) / sp) * (1 / 2)| = 1 ↔ _
    rw [abs_mul, abs_of_nonneg (by norm_num : (0 : ℚ) ≤ 1 / 2)]
    constructor
    · intro h
      linarith
    · intro h
      rw [h]
      norm_num

/-- Witness for the amended C6 at concrete stars. -/
theorem opacity_range_invariant_witness :
    (1 / 2 ≤ zStar.opacity ∧ zStar.opacity < 1) ∧
    (1 / 2 ≤ (renderStar zeroEnv 0 twStar).opacity
      ∧ (renderStar zeroEnv 0 twStar).opacity ≤ 1) ∧
    ((renderStar zeroEnv 0 twStar).opacity = 1
      ↔ |zeroEnv.sin ((0 * (1 / 1000)) / (1 / 2))| = 1) :=
  ⟨(opacity_range_invariant zeroEnv (fun x => by norm_num [zeroEnv]) zeroEnv_rand_mem).1
      0 100 100 zStar zStar_mem,
   (opacity_range_invariant zeroEnv (fun x => by norm_num [zeroEnv]) zeroEnv_rand_mem).2.1
      0 twStar (by norm_num [twStar]) (by norm_num [twStar]),
   (opacity_range_invariant zeroEnv (fun x => by norm_num [zeroEnv]) zeroEnv_rand_mem).2.2
      0 twStar (1 / 2) rfl⟩

/-- C7: within one `render` invocation every star is drawn with the
opacity it held before that invocation's mutation step: the emitted
draw commands are exactly `drawOf` of the pre-frame star list. -/
theorem render_draw_order (E : Env) (now : ℚ) (st : CompState) :
    (render E now st).1 = st.stars.map drawOf ∧
    ∀ stars, (renderLoop E now stars).1 = stars.map drawOf := by
  constructor
  · simp [render, renderLoop_fst]
  · exact renderLoop_fst E now

/-- C10: one `render` mutates nothing but the opacity of twinkling
stars: the list length and every star's `x`, `y`, `radius` and
`twinkleSpeed` are unchanged, a star with null `twinkleSpeed` is left
entirely unchanged, and it stays unchanged under any sequence of
frames. -/
theorem render_mutates_only_twinkle_opacity (E : Env) (now : ℚ) (stars : List Star) :
    ((renderLoop E now stars).2.length = stars.length) ∧
    ((renderLoop E now stars).2 = stars.map (renderStar E now)) ∧
    (∀ s, (renderStar E now s).x = s.x ∧ (renderStar E now s).y = s.y ∧
      (renderStar E now s).radius = s.radius ∧
      (renderStar E now s).twinkleSpeed = s.twinkleSpeed) ∧
    (∀ s, s.twinkleSpeed = none → renderStar E now s = s) ∧
    (∀ times s, s.twinkleSpeed = none → starIter E times s = s) := by
  have hfix : ∀ times : List ℚ, ∀ s : Star, s.twinkleSpeed = none → starIter E times s = s := by
    intro times
    induction times with
    | nil => intro s h; rfl
    | cons t ts ih =>
        intro s h
        have : starIter E (t :: ts) s = starIter E ts (renderStar E t s) := rfl
        rw [this, renderStar_none E t h]
        exact ih s h
  refine ⟨by rw [renderLoop_snd]; simp, renderLoop_snd E now stars, ?_, ?_, hfix⟩
  · intro s
    rcases htw : s.twinkleSpeed with _ | sp
    · rw [renderStar_none E now htw]
      exact ⟨rfl, rfl, rfl, htw⟩
    · rw [renderStar_some E now htw]
      exact ⟨rfl, rfl, rfl, htw⟩
  · intro s h
    exact renderStar_none E now h

/-- Witness for C10: a null-`twinkleSpeed` star is unchanged by three
frames. -/
theorem render_mutates_only_twinkle_opacity_witness :
    starIter zeroEnv [0, 1000, 2000] stStar = stStar :=
  ((render_mutates_only_twinkle_opacity zeroEnv 0 []).2.2.2.2) [0, 1000, 2000] stStar rfl

lemma updateStars_zero (E : Env) (w h now : ℚ) (st : CompState)
    (hz : w = 0 ∨ h = 0) : updateStars E w h now st = st := by
  unfold updateStars
  rw [if_pos hz]

lemma updateStars_some (E : Env) (w h now : ℚ) (st : CompState) (id : ℕ)
    (hz : ¬(w = 0 ∨ h = 0)) (ha : st.animationFrameId = some id) :
    updateStars E w h now st =
      { st with
        canvasWidth := w, canvasHeight := h,
        stars := (generateStars E st.rngIdx w h).1,
        rngIdx := (generateStars E st.rngIdx w h).2 } := by
  unfold updateStars
  rw [if_neg hz]
  simp [ha]

lemma updateStars_none (E : Env) (w h now : ℚ) (st : CompState)
    (hz : ¬(w = 0 ∨ h = 0)) (ha : st.animationFrameId = none) :
    updateStars E w h now st =
      (render E now { st with
        canvasWidth := w, canvasHeight := h,
        stars := (generateStars E st.rngIdx w h).1,
        rngIdx := (generateStars E st.rngIdx w h).2 }).2 := by
  unfold updateStars
  rw [if_neg hz]
  simp [ha]

lemma render_scheduled (E : Env) (now : ℚ) (st : CompState) :
    (render E now st).2.scheduled = st.scheduled ++ [st.nextFrameId + 1] := rfl

lemma render_animationFrameId (E : Env) (now : ℚ) (st : CompState) :
    (render E now st).2.animationFrameId = some (st.nextFrameId + 1) := rfl

lemma render_tornDown (E : Env) (now : ℚ) (st : CompState) :
    (render E now st).2.tornDown = st.tornDown := rfl

lemma render_observing (E : Env) (now : ℚ) (st : CompState) :
    (render E now st).2.observing = st.observing := rfl

lemma render_cancelCount (E : Env) (now : ℚ) (st : CompState) :
    (render E now st).2.cancelCount = st.cancelCount := rfl

lemma render_stars (E : Env) (now : ℚ) (st : CompState) :
    (render E now st).2.stars = (renderLoop E now st.stars).2 := rfl

/-- The inductive invariant of the component: the number of
`cancelAnimationFrame` calls tracks teardown; after teardown nothing is
scheduled or observed; before teardown the nullable `animationFrameId`
tracks exactly whether one frame is outstanding. -/
def Inv (st : CompState) : Prop :=
  (st.cancelCount = if st.tornDown then 1 else 0) ∧
  (st.tornDown = true → st.scheduled = [] ∧ st.observing = false) ∧
  (st.tornDown = false →
    (st.animationFrameId = none ∧ st.scheduled = []) ∨
    (∃ id, st.animationFrameId = some id ∧ st.scheduled = [id]))

lemma inv_init : Inv initState := by
  refine ⟨rfl, ?_, ?_⟩
  · intro h
    simp [initState] at h
  · intro _
    exact Or.inl ⟨rfl, rfl⟩

lemma inv_step {E : Env} {st : CompState} {e : Event} {st2 : CompState}
    (hI : Inv st) (hs : Step E st e st2) : Inv st2 := by
  obtain ⟨hc, htd, hnd⟩ := hI
  cases hs with
  | resize w h now st ho =>
      rcases htor : st.tornDown with _ | _
      · by_cases hz : w = 0 ∨ h = 0
        · rw [updateStars_zero E w h now st hz]
          exact ⟨hc, htd, hnd⟩
        · rcases hnd htor with ⟨ha, hsch⟩ | ⟨id, ha, hsch⟩
          · rw [updateStars_none E w h now st hz ha]
            refine ⟨?_, ?_, ?_⟩
            · rw [render_cancelCount]
              simpa [render_tornDown, htor] using hc
            · intro hbad
              rw [render_tornDown] at hbad
              simp [htor] at hbad
            · intro _
              refine Or.inr ⟨_, render_animationFrameId E now _, ?_⟩
              rw [render_scheduled]
              simp [hsch]
          · rw [updateStars_some E w h now st id hz ha]
            refine ⟨hc, htd, fun _ => Or.inr ⟨id, ha, hsch⟩⟩
      · exfalso
        have := (htd htor).2
        rw [this] at ho
        exact Bool.false_ne_true ho
  | frame now st id rest hsch =>
      rcases htor : st.tornDown with _ | _
      · rcases hnd htor with ⟨ha, hemp⟩ | ⟨id0, ha, hone⟩
        · rw [hemp] at hsch
          exact absurd hsch (List.cons_ne_nil _ _).symm
        · rw [hone] at hsch
          have hid : id0 = id := ((List.cons.injEq _ _ _ _).mp hsch.symm |>.1).symm
          have hrest : rest = [] := (List.cons.injEq _ _ _ _).mp hsch.symm |>.2
          subst hrest
          refine ⟨?_, ?_, ?_⟩
          · rw [render_cancelCount]
            simpa [render_tornDown, htor] using hc
          · intro hbad
            rw [render_tornDown] at hbad
            simp [htor] at hbad
          · intro _
            refine Or.inr ⟨_, render_animationFrameId E now _, ?_⟩
            rw [render_scheduled]
            simp
      · exfalso
        have := (htd htor).1
        rw [this] at hsch
        exact (List.cons_ne_nil _ _) hsch.symm
  | teardown st ht =>
      refine ⟨?_, ?_, ?_⟩
      · have hc0 : st.cancelCount = 0 := by simpa [ht] using hc
        simp [teardownOp, hc0]
      · intro _
        refine ⟨?_, rfl⟩
        rcases hnd ht with ⟨ha, hemp⟩ | ⟨id, ha, hone⟩
        · simp [teardownOp, ha, hemp]
        · simp [teardownOp, ha, hone]
      · intro hbad
        simp [teardownOp] at hbad

lemma reachable_inv {E : Env} {st : CompState} (h : Reachable E st) : Inv st := by
  induction h with
  | init => exact inv_init
  | step _ hs ih => exact inv_step ih hs

/-- C4: invoking the resize handler while the observed width or height
is zero leaves the entire component state unchanged: no regeneration,
no bitmap resize, no render loop start. -/
theorem updateStars_zero_noop (E : Env) (w h now : ℚ) (st : CompState)
    (hz : w = 0 ∨ h = 0) : updateStars E w h now st = st :=
  updateStars_zero E w h now st hz

/-- Witness for C4 at a concrete zero-width invocation. -/
theorem updateStars_zero_noop_witness :
    updateStars zeroEnv 0 5 7 initState = initState :=
  updateStars_zero_noop zeroEnv 0 5 7 initState (Or.inl rfl)

/-- C3: in every reachable state, at most one frame is outstanding; a
transition out of Idle happens only on a resize invocation observing
non-zero dimensions in a state where no handle was ever stored; once
Animating only teardown leaves Animating; and a non-zero resize while
Animating replaces the star collection but changes neither the set of
outstanding frames nor the stored handle. -/
theorem star_loop_state_machine (E : Env) (st : CompState) (hR : Reachable E st) :
    st.scheduled.length ≤ 1 ∧
    (∀ e st2, Step E st e st2 → Idle st → Animating st2 →
      ∃ w h now, e = Event.resize w h now ∧ ¬w = 0 ∧ ¬h = 0 ∧
        st.animationFrameId = none) ∧
    (∀ e st2, Step E st e st2 → Animating st → ¬ Animating st2 → e = Event.teardown) ∧
    (∀ w h now, Animating st → ¬w = 0 → ¬h = 0 →
      (updateStars E w h now st).stars = (generateStars E st.rngIdx w h).1 ∧
      (updateStars E w h now st).scheduled = st.scheduled ∧
      (updateStars E w h now st).animationFrameId = st.animationFrameId) := by
  obtain ⟨hc, htd, hnd⟩ := reachable_inv hR
  have hsome : Animating st → ∃ id, st.animationFrameId = some id ∧ st.scheduled = [id] := by
    intro hA
    rcases htor : st.tornDown with _ | _
    · rcases hnd htor with ⟨ha, hemp⟩ | hgood
      · exact absurd hemp hA
      · exact hgood
    · exact absurd (htd htor).1 hA
  refine ⟨?_, ?_, ?_, ?_⟩
  · rcases htor : st.tornDown with _ | _
    · rcases hnd htor with ⟨ha, hemp⟩ | ⟨id, ha, hone⟩
      · simp [hemp]
      · simp [hone]
    · simp [(htd htor).1]
  · intro e st2 hstep hIdle hAnim
    cases hstep with
    | resize w h now st ho =>
        by_cases hz : w = 0 ∨ h = 0
        · rw [updateStars_zero E w h now st hz] at hAnim
          exact absurd hIdle hAnim
        · push_neg at hz
          have hIdle2 : st.scheduled = [] := hIdle
          have ha : st.animationFrameId = none := by
            rcases htor : st.tornDown with _ | _
            · rcases hnd htor with ⟨ha, hemp⟩ | ⟨id, ha, hone⟩
              · exact ha
              · rw [hone] at hIdle2
                exact absurd hIdle2 (List.cons_ne_nil _ _)
            · exact absurd ho (by simp [(htd htor).2])
          exact ⟨w, h, now, rfl, hz.1, hz.2, ha⟩
    | frame now st id rest hsch =>
        rw [hIdle] at hsch
        exact absurd hsch.symm (List.cons_ne_nil _ _)
    | teardown st ht =>
        exfalso
        have hIdle2 : st.scheduled = [] := hIdle
        apply hAnim
        rcases ha : st.animationFrameId with _ | id
        · simp [Animating, teardownOp, ha, hIdle2]
        · simp [Animating, teardownOp, ha, hIdle2]
  · intro e st2 hstep hAnim hNot
    cases hstep with
    | resize w h now st ho =>
        exfalso
        obtain ⟨id, ha, hone⟩ := hsome hAnim
        by_cases hz : w = 0 ∨ h = 0
        · rw [updateStars_zero E w h now st hz] at hNot
          exact hNot hAnim
        · rw [updateStars_some E w h now st id hz ha] at hNot
          exact hNot (by simpa [Animating] using hAnim)
    | frame now st id rest hsch =>
        exfalso
        apply hNot
        show (render E now { st with scheduled := rest }).2.scheduled ≠ []
        rw [render_scheduled]
        simp
    | teardown st ht => rfl
  · intro w h now hAnim hw hh
    obtain ⟨id, ha, hone⟩ := hsome hAnim
    have hz : ¬(w = 0 ∨ h = 0) := by
      rintro (rfl | rfl)
      · exact hw rfl
      · exact hh rfl
    rw [updateStars_some E w h now st id hz ha]
    exact ⟨rfl, rfl, rfl⟩

/-- Witness for C3: after the first non-zero resize the component is
Animating, and a second non-zero resize replaces the stars without
touching the outstanding frame or the stored handle. -/
theorem star_loop_state_machine_witness :
    Animating (updateStars zeroEnv 100 100 0 initState) ∧
    (updateStars zeroEnv 100 100 5 (updateStars zeroEnv 100 100 0 initState)).stars
      = (generateStars zeroEnv
          (updateStars zeroEnv 100 100 0 initState).rngIdx 100 100).1 ∧
    (updateStars zeroEnv 100 100 5 (updateStars zeroEnv 100 100 0 initState)).scheduled
      = (updateStars zeroEnv 100 100 0 initState).scheduled := by
  have hz : ¬((100 : ℚ) = 0 ∨ (100 : ℚ) = 0) := by norm_num
  have hstep : Step zeroEnv initState (Event.resize 100 100 0)
      (updateStars zeroEnv 100 100 0 initState) :=
    Step.resize 100 100 0 initState rfl
  have hR1 : Reachable zeroEnv (updateStars zeroEnv 100 100 0 initState) :=
    Reachable.step Reachable.init hstep
  have hA : Animating (updateStars zeroEnv 100 100 0 initState) := by
    rw [updateStars_none zeroEnv 100 100 0 initState hz rfl]
    show (render zeroEnv 0 _).2.scheduled ≠ []
    rw [render_scheduled]
    simp
  obtain ⟨-, -, -, h4⟩ := star_loop_state_machine zeroEnv _ hR1
  obtain ⟨hstars, hsch, -⟩ := h4 100 100 5 hA (by norm_num) (by norm_num)
  exact ⟨hA, hstars, hsch⟩

/-- C9: firing the page-teardown handler in any reachable state where
it has not fired yet invokes the cancellation exactly once (the running
count goes to one), unsubscribes the resize observation, leaves no
outstanding frame, and afterwards no event — resize, frame or teardown
— can fire again. -/
theorem teardown_stops_everything (E : Env) (st : CompState) (hR : Reachable E st)
    (ht : st.tornDown = false) :
    (teardownOp st).cancelCount = 1 ∧
    (teardownOp st).observing = false ∧
    (teardownOp st).scheduled = [] ∧
    (∀ e st2, ¬ Step E (teardownOp st) e st2) := by
  obtain ⟨hc, htd, hnd⟩ := reachable_inv hR
  have hc1 : (teardownOp st).cancelCount = 1 := by
    have hc0 : st.cancelCount = 0 := by simpa [ht] using hc
    simp [teardownOp, hc0]
  have hsch : (teardownOp st).scheduled = [] := by
    rcases hnd ht with ⟨ha, hemp⟩ | ⟨id, ha, hone⟩
    · simp [teardownOp, ha, hemp]
    · simp [teardownOp, ha, hone]
  refine ⟨hc1, rfl, hsch, ?_⟩
  intro e st2 hstep
  cases hstep with
  | resize w h now st3 ho =>
      simp [teardownOp] at ho
  | frame now st3 id rest hs =>
      rw [hsch] at hs
      exact (List.cons_ne_nil _ _) hs.symm
  | teardown st3 ht2 =>
      simp [teardownOp] at ht2

/-- Witness for C9 at the initial state: teardown before any resize
cancels the (absent) frame once and blocks every further event. -/
theorem teardown_stops_everything_witness :
    (teardownOp initState).cancelCount = 1 ∧
    (teardownOp initState).observing = false ∧
    (teardownOp initState).scheduled = [] ∧
    ¬ Step zeroEnv (teardownOp initState) Event.teardown
        (teardownOp (teardownOp initState)) := by
  obtain ⟨h1, h2, h3, h4⟩ :=
    teardown_stops_everything zeroEnv initState Reachable.init rfl
  exact ⟨h1, h2, h3, h4 Event.teardown (teardownOp (teardownOp initState))⟩

